import Mathlib

set_option autoImplicit false

/-!
A shallow embedding of aqua_chemistry.py, the orchestrator module of the
qiskit-aqua-chemistry repository (class AquaChemistry), together with proofs
about its pipeline.  External collaborators that the module imports from
outside the file (InputParser, JSONSchema, ConfigurationManager, the drivers,
the chemistry operators, qiskit_aqua.run_algorithm, convert_json_to_dict and
the filesystem primitives) are modelled as fields of an environment record or,
for the parser data model, from the spec; the orchestrator logic itself is
translated match for match from the source.  Observable side effects (driver
invocation, molecule persistence, algorithm invocation, file writes) are
collected in an explicit trace.  Logging and stdout printing are not observable
to any claim and are elided.
-/

/-- Python dict objects with string keys, as association lists. -/
abbrev Props := List (String × String)

/-- Dictionary lookup d[k] (first binding wins, as dict keys are unique). -/
def Dict.get {α : Type} : List (String × α) → String → Option α
  | [], _ => none
  | e :: t, k => if e.1 = k then some e.2 else Dict.get t k

/-- Dictionary assignment d[k] = v: replaces the binding of k, else appends. -/
def Dict.set {α : Type} : List (String × α) → String → α → List (String × α)
  | [], k, v => [(k, v)]
  | e :: t, k, v => if e.1 = k then (k, v) :: t else e :: Dict.set t k v

/-- Dictionary deletion del d[k]. -/
def Dict.erase {α : Type} : List (String × α) → String → List (String × α)
  | [], _ => []
  | e :: t, k => if e.1 = k then Dict.erase t k else e :: Dict.erase t k

/-- Membership test k in d. -/
def Dict.hasKey {α : Type} (d : List (String × α)) (k : String) : Bool :=
  (Dict.get d k).isSome

/-- Modelled from the spec: a Section of the ConfigurationDocument holds an
optional opaque raw payload (the data key) and an optional mapping of
validated properties. -/
structure Sect where
  data : Option String := none
  properties : Option Props := none
deriving DecidableEq

/-- Modelled from the spec: the parsed ConfigurationDocument
(qiskit_aqua_chemistry.parser.InputParser, not under src/): a mapping from
section name to Section plus the originating file path, or none if the
document was constructed in-memory.  The external parser normalizes section
names to lower case on storage. -/
structure InputParser where
  sections : List (String × Sect) := []
  filename : Option String := none
deriving DecidableEq

/-- Modelled from the spec: constant JSONSchema.NAME, the metadata section
name and the mandatory name property key. -/
def JSONSchema.NAME : String := "name"

/-- Modelled from the spec: constant JSONSchema.PROBLEM, the designated
problem section name. -/
def JSONSchema.PROBLEM : String := "problem"

/-- Modelled from the spec: constant InputParser.DRIVER, the driver
meta-section name. -/
def InputParser.DRIVER : String := "driver"

/-- Modelled from the spec: constant InputParser.OPERATOR, the operator
meta-section name. -/
def InputParser.OPERATOR : String := "operator"

/-- Modelled from the spec: constant InputParser.AUTO_SUBSTITUTIONS, the
auto-substitution marker key inside the problem section. -/
def InputParser.AUTO_SUBSTITUTIONS : String := "auto_substitutions"

/-- Source constant AquaChemistry.KEY_HDF5_OUTPUT (line 38). -/
def AquaChemistry.KEY_HDF5_OUTPUT : String := "hdf5_output"

/-- Python str.lower(), as a structural map over the characters (the same
function as String.toLower, written so that it evaluates by kernel
reduction). -/
def str_lower (s : String) : String :=
  String.mk (s.data.map Char.toLower)

/-- Modelled from the spec: InputParser.get_section. -/
def InputParser.get_section (p : InputParser) (sname : String) : Option Sect :=
  Dict.get p.sections sname

/-- Modelled from the spec: InputParser.get_section_property, the lookup of a
single property of a named section. -/
def InputParser.get_section_property (p : InputParser) (sname key : String) :
    Option String :=
  match p.get_section sname with
  | none => none
  | some s =>
    match s.properties with
    | none => none
    | some props => Dict.get props key

/-- Modelled from the spec: InputParser.get_section_properties, the extraction
of all properties of a section (empty when the section or its properties are
absent). -/
def InputParser.get_section_properties (p : InputParser) (sname : String) : Props :=
  ((p.get_section sname).bind (fun s => s.properties)).getD []

/-- Modelled from the spec: InputParser.get_sections. -/
def InputParser.get_sections (p : InputParser) : List (String × Sect) :=
  p.sections

/-- Modelled from the spec: InputParser.get_filename. -/
def InputParser.get_filename (p : InputParser) : Option String :=
  p.filename

/-- Errors observable from the orchestrator: AquaChemistryError with its
message, or an untyped Python runtime error (such as the TypeError raised by
item assignment on a str). -/
inductive PyErr where
  | aqua (msg : String)
  | typeError
deriving DecidableEq

/-- The opaque Molecule artifact produced by a driver, with the two
provenance attributes the orchestrator attaches before persistence
(lines 209-210). -/
structure Molecule where
  payload : Nat
  origin_driver_name : Option String := none
  origin_driver_config : Option String := none
deriving DecidableEq

/-- The opaque AlgorithmInput artifact produced by a chemistry operator:
its serializable form to_params() and its configuration name. -/
structure AlgoInput where
  to_params : Props
  config_name : String
deriving DecidableEq

/-- Values stored in a result record returned by the algorithm runner or
assembled by the orchestrator. -/
inductive RVal where
  | str (s : String)
  | lines (ls : List String)
deriving DecidableEq

/-- The structured mapping holding a run result. -/
abbrev ResultRecord := List (String × RVal)

/-- The assembled algorithm parameters: section name to properties copy. -/
abbrev Params := List (String × Props)

/-- A resolved chemistry operator instance (external collaborator): already
initialized with the operator section properties; exposes run(molecule),
molecule_info and process_algorithm_result. -/
structure Core where
  run_mol : Molecule → AlgoInput
  molecule_info : Props
  process_result : ResultRecord → List String × ResultRecord

/-- A value returned by the external run_algorithm collaborator: either a
structured mapping (dict) or something else. -/
inductive AlgoRet where
  | dict (d : ResultRecord)
  | nondict
deriving DecidableEq

/-- Observable side effects of one orchestrator call, in order. -/
inductive Effect where
  | driverRun (driver_name : String)
  | moleculeSaved (path : String) (m : Molecule)
  | algorithmRun
  | fileWritten (path : String) (ls : List String)
  | jsonWritten (path : String) (data : Params)
  | inputSaved (path : String) (p : InputParser)
deriving DecidableEq

/-- The mutable instance state of an AquaChemistry object: the fields
assigned by the entry points (self with underscore-named attributes in the
source). -/
structure OrchState where
  stParser : Option InputParser := none
  stCore : Option Core := none

/-- The external collaborators consumed by the orchestrator, as opaque
functions.  get_chemistry_operator_instance here covers both the registry
resolution and the subsequent init_params call on the instance (lines
219-220); either may fail. -/
structure Env where
  validate_merge_defaults : InputParser → Except PyErr InputParser
  module_names : List String
  driver_run : String → Option String → Sect → Molecule
  get_chemistry_operator_instance : Option String → Props → Except PyErr Core
  run_algorithm : Params → Option AlgoInput → AlgoRet
  convert_json_to_dict : ResultRecord → ResultRecord
  process_substitutions : InputParser → Props → Except PyErr InputParser
  dirname_realpath : String → String
  isabs : String → Bool
  abspath_join : String → String → String

/-- The outcome of one orchestrator operation: the updated instance state,
the trace of observable effects, and the returned value or raised error. -/
structure DriveOut (α : Type) where
  state : OrchState
  trace : List Effect
  result : Except PyErr α

/-- What InputParser(input) followed by parse() yields: the constructed
parser object (assigned to the parser field before parsing is checked) and
the error parse() raises, if any. -/
structure RawInput where
  parserObj : InputParser
  parseErr : Option PyErr := none

/-- Lines 203-204: resolve the configured hdf5 path against the working
directory when a working directory exists and the path is not absolute. -/
def resolve_hdf5_path (env : Env) (work_path : Option String) (f : String) : String :=
  match work_path with
  | some wp => if ¬ env.isabs f then env.abspath_join wp f else f
  | none => f

/-- Line 212: the single descriptive line produced by the cache
short-circuit. -/
def hdf5_saved_text (f : String) : String :=
  "HDF5 file saved \x27" ++ f ++ "\x27"

/-- The for-loop of lines 227-239, as a recursion over the section list with
the params dict accumulated: skip the metadata section, the driver
meta-section, the concrete driver section (by lower-cased driver name), the
operator meta-section and any section without properties; store a deep copy
of the properties of every other section; the auto-substitution marker is
deleted from the stored copy of the problem section when present. -/
def extract_go (driver_name : String) :
    List (String × Sect) → Params → Params
  | [], params => params
  | (sname, s) :: t, params =>
    if sname = JSONSchema.NAME ∨ sname = InputParser.DRIVER ∨
       sname = str_lower driver_name ∨ sname = InputParser.OPERATOR then
      extract_go driver_name t params
    else
      match s.properties with
      | none => extract_go driver_name t params
      | some props =>
        let copied :=
          if sname = JSONSchema.PROBLEM ∧
             Dict.hasKey props InputParser.AUTO_SUBSTITUTIONS = true then
            Dict.erase props InputParser.AUTO_SUBSTITUTIONS
          else props
        extract_go driver_name t (Dict.set params sname copied)

/-- Lines 227-239: assembly of the algorithm parameter mapping (what the
spec calls extract_algorithm_parameters). -/
def extract_algorithm_parameters (sections : List (String × Sect))
    (driver_name : String) : Params :=
  extract_go driver_name sections []

/-- Lines 218-241: the tail of _run_driver_from_parser past the cache
decision: resolve the chemistry operator (assigning the instance core
field), compute the AlgorithmInput, run the substitution pass (which updates
the document held by the instance), and assemble the algorithm
parameters. -/
def AquaChemistry.run_operator_stage (env : Env) (st : OrchState)
    (p1 : InputParser) (driver_name : String) (molecule : Molecule)
    (tr : List Effect) : DriveOut (Params × AlgoInput) :=
  match env.get_chemistry_operator_instance
      (p1.get_section_property InputParser.OPERATOR JSONSchema.NAME)
      (p1.get_section_properties InputParser.OPERATOR) with
  | .error e => ⟨st, tr, .error e⟩
  | .ok core =>
    let st2 : OrchState := { st with stCore := some core }
    let input_object := core.run_mol molecule
    match env.process_substitutions p1 core.molecule_info with
    | .error e => ⟨st2, tr, .error e⟩
    | .ok p2 =>
      let st3 : OrchState := { st2 with stParser := some p2 }
      ⟨st3, tr, .ok (extract_algorithm_parameters p2.get_sections driver_name,
                     input_object)⟩

/-- The tuple returned by _run_driver_from_parser: either
(_DRIVER_RUN_TO_HDF5, text) or (_DRIVER_RUN_TO_ALGO_INPUT, params,
input_object). -/
inductive DriverReturn where
  | toHdf5 (text : String)
  | toAlgoInput (params : Params) (input_object : AlgoInput)

/-- Lines 166-241, _run_driver_from_parser.  At every call site in the file
the argument p is the parser the caller just stored in the instance, so the
in-place mutations of p (validation-with-merge, substitution) are modelled by
updating the parser field of the state; a state whose parser field is none
models the call with p None.  Logging, including the experiment-name lookup
of lines 173-179, has no observable effect and is elided. -/
def AquaChemistry.run_driver_stage (env : Env) (st : OrchState)
    (save_json_algo_file : Bool) : DriveOut DriverReturn :=
  match st.stParser with
  | none => ⟨st, [], .error (.aqua "Missing parser")⟩
  | some p =>
    match env.validate_merge_defaults p with
    | .error e => ⟨st, [], .error e⟩
    | .ok p1 =>
      let st1 : OrchState := { st with stParser := some p1 }
      match p1.get_section_property InputParser.DRIVER JSONSchema.NAME with
      | none =>
        ⟨st1, [], .error (.aqua ("Property \"" ++ JSONSchema.NAME ++
          "\" missing in section \"" ++ InputParser.DRIVER ++ "\""))⟩
      | some driver_name =>
        let hdf5_prop :=
          p1.get_section_property InputParser.DRIVER AquaChemistry.KEY_HDF5_OUTPUT
        match p1.get_section driver_name with
        | none =>
          ⟨st1, [], .error (.aqua ("No section \"" ++ driver_name ++ "\""))⟩
        | some dsect =>
          match dsect.data with
          | none =>
            ⟨st1, [], .error (.aqua ("Property \"data\" missing in section \"" ++
              driver_name ++ "\""))⟩
          | some ddata =>
            if driver_name ∈ env.module_names then
              let work_path := p1.get_filename.map env.dirname_realpath
              let molecule := env.driver_run driver_name work_path dsect
              let tr1 := [Effect.driverRun driver_name]
              match hdf5_prop with
              | some f0 =>
                let f := resolve_hdf5_path env work_path f0
                let molecule1 : Molecule :=
                  { molecule with origin_driver_name := some driver_name,
                                  origin_driver_config := some ddata }
                let tr2 := tr1 ++ [Effect.moleculeSaved f molecule1]
                if ¬ save_json_algo_file then
                  ⟨st1, tr2, .ok (.toHdf5 (hdf5_saved_text f))⟩
                else
                  match AquaChemistry.run_operator_stage env st1 p1 driver_name
                      molecule1 tr2 with
                  | ⟨st4, tr4, .error e⟩ => ⟨st4, tr4, .error e⟩
                  | ⟨st4, tr4, .ok (params, input_object)⟩ =>
                    ⟨st4, tr4, .ok (.toAlgoInput params input_object)⟩
              | none =>
                match AquaChemistry.run_operator_stage env st1 p1 driver_name
                    molecule tr1 with
                | ⟨st4, tr4, .error e⟩ => ⟨st4, tr4, .error e⟩
                | ⟨st4, tr4, .ok (params, input_object)⟩ =>
                  ⟨st4, tr4, .ok (.toAlgoInput params input_object)⟩
            else
              ⟨st1, [Effect.driverRun driver_name],
                .error (.aqua ("Driver \"" ++ driver_name ++
                  "\" missing in local drivers"))⟩

/-- Lines 70-98: the public run entry point.  The parser object is assigned
to the instance before parse() is checked; the stCore none branch after a
successful driver stage models the attribute access self dot core on None
(unreachable in fact, see the C6 development). -/
def AquaChemistry.run (env : Env) (st : OrchState) (input : Option RawInput)
    (output : Option String) : DriveOut ResultRecord :=
  match input with
  | none => ⟨st, [], .error (.aqua "Missing input.")⟩
  | some r =>
    let st1 : OrchState := { st with stParser := some r.parserObj }
    match r.parseErr with
    | some e => ⟨st1, [], .error e⟩
    | none =>
      match AquaChemistry.run_driver_stage env st1 false with
      | ⟨st2, tr, .error e⟩ => ⟨st2, tr, .error e⟩
      | ⟨st2, tr, .ok (.toHdf5 text)⟩ =>
        ⟨st2, tr, .ok [("printable", RVal.lines [text])]⟩
      | ⟨st2, tr, .ok (.toAlgoInput params input_object)⟩ =>
        let tr1 := tr ++ [Effect.algorithmRun]
        match env.run_algorithm params (some input_object) with
        | .nondict =>
          ⟨st2, tr1, .error (.aqua "Algorithm run result should be a dictionary")⟩
        | .dict data0 =>
          let data := env.convert_json_to_dict data0
          match st2.stCore with
          | none => ⟨st2, tr1, .error .typeError⟩
          | some core =>
            let lr := core.process_result data
            let result := Dict.set lr.2 "printable" (RVal.lines lr.1)
            match output with
            | none => ⟨st2, tr1, .ok result⟩
            | some out =>
              ⟨st2, tr1 ++ [Effect.fileWritten out lr.1], .ok result⟩

/-- Lines 155-164, _run_drive: run the driver stage, then attach the input
sub-mapping to the returned params.  When the driver stage returned the
hdf5 tuple, the value at index 1 is a str and the item assignment of line
162 raises an untyped TypeError.  The Option on the returned value models
Python None-ness: the source returns the params dict on its only return
statement, so none is never produced. -/
def AquaChemistry.run_drive_impl (env : Env) (st : OrchState)
    (input : Option RawInput) (save_json_algo_file : Bool) :
    DriveOut (Option Params) :=
  match input with
  | none => ⟨st, [], .error (.aqua "Missing input.")⟩
  | some r =>
    let st1 : OrchState := { st with stParser := some r.parserObj }
    match r.parseErr with
    | some e => ⟨st1, [], .error e⟩
    | none =>
      match AquaChemistry.run_driver_stage env st1 save_json_algo_file with
      | ⟨st2, tr, .error e⟩ => ⟨st2, tr, .error e⟩
      | ⟨st2, tr, .ok (.toHdf5 _)⟩ => ⟨st2, tr, .error .typeError⟩
      | ⟨st2, tr, .ok (.toAlgoInput params input_object)⟩ =>
        let inputDict :=
          Dict.set input_object.to_params "name" input_object.config_name
        ⟨st2, tr, .ok (some (Dict.set params "input" inputDict))⟩

/-- Lines 152-153: the public run_drive entry point. -/
def AquaChemistry.run_drive (env : Env) (st : OrchState)
    (input : Option RawInput) : DriveOut (Option Params) :=
  AquaChemistry.run_drive_impl env st input false

/-- Lines 112-124: run_drive_to_jsonfile.  The jsonfile check precedes the
drive; a None drive result only logs a notice and returns without writing. -/
def AquaChemistry.run_drive_to_jsonfile (env : Env) (st : OrchState)
    (input : Option RawInput) (jsonfile : Option String) : DriveOut Unit :=
  match jsonfile with
  | none => ⟨st, [], .error (.aqua "Missing json file")⟩
  | some jf =>
    match AquaChemistry.run_drive_impl env st input true with
    | ⟨st2, tr, .error e⟩ => ⟨st2, tr, .error e⟩
    | ⟨st2, tr, .ok none⟩ => ⟨st2, tr, .ok ()⟩
    | ⟨st2, tr, .ok (some data)⟩ =>
      ⟨st2, tr ++ [Effect.jsonWritten jf data], .ok ()⟩

/-- Lines 130-146: run_algorithm_from_json.  The instance state is not
touched; the result is printed to stdout and returned.  The output parameter
appears in the signature but no branch of the body consults it. -/
def AquaChemistry.run_algorithm_from_json (env : Env) (params : Params)
    (output : Option String) : List Effect × Except PyErr ResultRecord :=
  match env.run_algorithm params none with
  | .nondict =>
    ([Effect.algorithmRun],
     .error (.aqua "Algorithm run result should be a dictionary"))
  | .dict ret0 =>
    ([Effect.algorithmRun], .ok (env.convert_json_to_dict ret0))

/-- Lines 126-128: run_algorithm_from_jsonfile delegates to
run_algorithm_from_json on the loaded document (the file read itself is an
external effect and its parsed content is the argument here). -/
def AquaChemistry.run_algorithm_from_jsonfile (env : Env)
    (jsonfile_params : Params) (output : Option String) :
    List Effect × Except PyErr ResultRecord :=
  AquaChemistry.run_algorithm_from_json env jsonfile_params output

/-- Lines 100-110: save_input serializes the document currently held by the
instance. -/
def AquaChemistry.save_input (st : OrchState) (input_file : String) :
    List Effect × Except PyErr Unit :=
  match st.stParser with
  | none => ([], .error (.aqua "Missing input information."))
  | some p => ([Effect.inputSaved input_file p], .ok ())

/-- A heap of Python dict objects: object identity (a Nat address) to
current contents.  Used to make the aliasing behaviour of copy.deepcopy on
line 236 observable. -/
abbrev Store := Nat → Props

/-- In-place mutation of the dict object at address i. -/
def Store.write (store : Store) (i : Nat) (v : Props) : Store :=
  fun j => if j = i then v else store j

/-- A Section as seen by the allocation-aware reading of lines 227-239: the
properties mapping is a reference into the Store rather than an inline
value. -/
structure SectRef where
  data : Option String := none
  propsRef : Option Nat := none
deriving DecidableEq

/-- The for-loop of lines 227-239 again, with copy.deepcopy modelled
explicitly: each stored copy is a freshly allocated dict object (addresses
fresh, fresh+1, ...) holding the same contents as the document section it
copies, and the del of line 239 mutates the fresh copy only. -/
def extract_alloc_go (driver_name : String) :
    List (String × SectRef) → List (String × Nat) → Store → Nat →
    List (String × Nat) × Store × Nat
  | [], params, store, fresh => (params, store, fresh)
  | (sname, s) :: t, params, store, fresh =>
    if sname = JSONSchema.NAME ∨ sname = InputParser.DRIVER ∨
       sname = str_lower driver_name ∨ sname = InputParser.OPERATOR then
      extract_alloc_go driver_name t params store fresh
    else
      match s.propsRef with
      | none => extract_alloc_go driver_name t params store fresh
      | some r =>
        let props := store r
        let copied :=
          if sname = JSONSchema.PROBLEM ∧
             Dict.hasKey props InputParser.AUTO_SUBSTITUTIONS = true then
            Dict.erase props InputParser.AUTO_SUBSTITUTIONS
          else props
        extract_alloc_go driver_name t (Dict.set params sname fresh)
          (Store.write store fresh copied) (fresh + 1)

/-- Lines 227-239 with object identities: returns the assembled parameter
mapping (section name to address of its deep copy), the heap after the
copies, and the next free address. -/
def extract_algorithm_parameters_alloc (sections : List (String × SectRef))
    (driver_name : String) (store : Store) (fresh : Nat) :
    List (String × Nat) × Store × Nat :=
  extract_alloc_go driver_name sections [] store fresh

/-- Provenance of an entry of the assembled parameter mapping: it was copied
from a section of the document that survived every exclusion of lines
229-234, with the auto-substitution marker stripped from the problem
section. -/
def ExtractedFrom (driver_name : String) (l : List (String × Sect))
    (e : String × Props) : Prop :=
  ∃ s props, (e.1, s) ∈ l ∧ s.properties = some props ∧
    e.1 ≠ JSONSchema.NAME ∧ e.1 ≠ InputParser.DRIVER ∧
    e.1 ≠ str_lower driver_name ∧ e.1 ≠ InputParser.OPERATOR ∧
    (e.2 = props ∨ e.2 = Dict.erase props InputParser.AUTO_SUBSTITUTIONS) ∧
    (e.1 = JSONSchema.PROBLEM →
      Dict.hasKey e.2 InputParser.AUTO_SUBSTITUTIONS = false)

/-! Concrete collaborators and documents used to instantiate the theorems
below on closed inputs. -/

/-- The driver section of the concrete hdf5-configured document. -/
def sectPyscf : Sect :=
  { data := some "atom H2", properties := some [("atom", "H2")] }

/-- A concrete document whose driver meta-section configures an hdf5 output
path. -/
def parserH : InputParser :=
  { sections :=
      [("name", { data := some "experiment" }),
       ("driver",
        { properties := some [("name", "pyscf"), ("hdf5_output", "mol.hdf5")] }),
       ("pyscf", sectPyscf),
       ("operator", { properties := some [("name", "hamiltonian")] }),
       ("problem",
        { properties := some [("auto_substitutions", "true"), ("energy", "x")] }),
       ("algorithm", { properties := some [("name", "vqe")] })],
    filename := some "/wk/input.txt" }

/-- The same concrete document without an hdf5 output path. -/
def parserA : InputParser :=
  { sections :=
      [("name", { data := some "experiment" }),
       ("driver", { properties := some [("name", "pyscf")] }),
       ("pyscf", sectPyscf),
       ("operator", { properties := some [("name", "hamiltonian")] }),
       ("problem",
        { properties := some [("auto_substitutions", "true"), ("energy", "x")] }),
       ("algorithm", { properties := some [("name", "vqe")] })],
    filename := some "/wk/input.txt" }

/-- A concrete document whose driver meta-section lacks the mandatory name
property. -/
def parserNoName : InputParser :=
  { sections :=
      [("driver", { properties := some [("atom", "H2")] }),
       ("pyscf", sectPyscf)],
    filename := none }

/-- A concrete document naming an unregistered driver whose own section has
no raw payload. -/
def parserNoData : InputParser :=
  { sections :=
      [("driver", { properties := some [("name", "unreg")] }),
       ("unreg", { properties := some [("atom", "H2")] })],
    filename := none }

/-- A concrete chemistry operator instance. -/
def coreW : Core :=
  { run_mol := fun _ =>
      { to_params := [("qubit_mapping", "parity")], config_name := "hamiltonian" },
    molecule_info := [("energy", "-1.0")],
    process_result := fun d => (["result line"], d) }

/-- A concrete environment on which every pipeline stage succeeds. -/
def envW : Env :=
  { validate_merge_defaults := fun p => .ok p,
    module_names := ["pyscf"],
    driver_run := fun _ _ _ => { payload := 7 },
    get_chemistry_operator_instance := fun _ _ => .ok coreW,
    run_algorithm := fun _ _ => .dict [("energy", RVal.str "-1.0")],
    convert_json_to_dict := fun d => d,
    process_substitutions := fun p _ => .ok p,
    dirname_realpath := fun _ => "/wk",
    isabs := fun s => s.data.head? == some (Char.ofNat 47),
    abspath_join := fun a b => a ++ "/" ++ b }

/-- envW with an algorithm runner that returns a non-mapping value. -/
def envN : Env :=
  { envW with run_algorithm := fun _ _ => .nondict }

/-- envW with a failing validation-and-merge step. -/
def envV : Env :=
  { envW with
    validate_merge_defaults := fun _ => .error (.aqua "Validation failed") }

/-- A concrete document for the allocation-aware model: the properties of
the six sections live at heap addresses 0 to 4. -/
def sectionsR : List (String × SectRef) :=
  [("name", { data := some "experiment" }),
   ("driver", { propsRef := some 0 }),
   ("pyscf", { data := some "atom H2", propsRef := some 1 }),
   ("operator", { propsRef := some 2 }),
   ("problem", { propsRef := some 3 }),
   ("algorithm", { propsRef := some 4 })]

/-- The heap holding the section properties of sectionsR. -/
def storeR : Store := fun n =>
  if n = 0 then [("name", "pyscf"), ("hdf5_output", "mol.hdf5")]
  else if n = 1 then [("atom", "H2")]
  else if n = 2 then [("name", "hamiltonian")]
  else if n = 3 then [("auto_substitutions", "true"), ("energy", "x")]
  else if n = 4 then [("name", "vqe")]
  else []

/-! Helper lemmas. -/

lemma Dict.mem_set {α : Type} (d : List (String × α)) (k : String) (v : α)
    (e : String × α) (h : e ∈ Dict.set d k v) : e = (k, v) ∨ e ∈ d := by
  induction d with
  | nil => simp [Dict.set] at h; exact Or.inl h
  | cons hd t ih =>
    rw [Dict.set] at h
    by_cases hk : hd.1 = k
    · rw [if_pos hk] at h
      rcases List.mem_cons.mp h with h1 | h1
      · exact Or.inl h1
      · exact Or.inr (List.mem_cons_of_mem _ h1)
    · rw [if_neg hk] at h
      rcases List.mem_cons.mp h with h1 | h1
      · exact Or.inr (h1 ▸ List.mem_cons_self _ _)
      · rcases ih h1 with h2 | h2
        · exact Or.inl h2
        · exact Or.inr (List.mem_cons_of_mem _ h2)

lemma Dict.get_erase_self {α : Type} (d : List (String × α)) (k : String) :
    Dict.get (Dict.erase d k) k = none := by
  induction d with
  | nil => rfl
  | cons hd t ih =>
    rw [Dict.erase]
    by_cases hk : hd.1 = k
    · rw [if_pos hk]; exact ih
    · rw [if_neg hk, Dict.get, if_neg hk]; exact ih

lemma Dict.hasKey_erase_self {α : Type} (d : List (String × α)) (k : String) :
    Dict.hasKey (Dict.erase d k) k = false := by
  rw [Dict.hasKey, Dict.get_erase_self]; rfl

lemma Dict.get_of_mem_nodup {α : Type} {d : List (String × α)} {k : String}
    {v : α} (hnd : (d.map Prod.fst).Nodup) (h : (k, v) ∈ d) :
    Dict.get d k = some v := by
  induction d with
  | nil => cases h
  | cons hd t ih =>
    rcases List.mem_cons.mp h with h1 | h1
    · rw [← h1]; simp [Dict.get]
    · have hk : hd.1 ≠ k := by
        intro hk
        have : hd.1 ∈ t.map Prod.fst := by
          rw [hk]
          exact List.mem_map.mpr ⟨(k, v), h1, rfl⟩
        exact (List.nodup_cons.mp hnd).1 this
      rw [Dict.get, if_neg hk]
      exact ih (List.nodup_cons.mp hnd).2 h1

lemma extract_go_mem (dn : String) (l : List (String × Sect)) :
    ∀ (params : Params), ∀ e ∈ extract_go dn l params,
      e ∈ params ∨ ExtractedFrom dn l e := by
  induction l with
  | nil => intro params e h; rw [extract_go] at h; exact Or.inl h
  | cons hd t ih =>
    obtain ⟨sname, s⟩ := hd
    intro params e h
    rw [extract_go] at h
    by_cases hg : sname = JSONSchema.NAME ∨ sname = InputParser.DRIVER ∨
        sname = str_lower dn ∨ sname = InputParser.OPERATOR
    · rw [if_pos hg] at h
      rcases ih params e h with h1 | h1
      · exact Or.inl h1
      · obtain ⟨s0, props, hmem, hrest⟩ := h1
        exact Or.inr ⟨s0, props, List.mem_cons_of_mem _ hmem, hrest⟩
    · rw [if_neg hg] at h
      push_neg at hg
      obtain ⟨hg1, hg2, hg3, hg4⟩ := hg
      cases hp : s.properties with
      | none =>
        rw [hp] at h
        rcases ih params e h with h1 | h1
        · exact Or.inl h1
        · obtain ⟨s0, props, hmem, hrest⟩ := h1
          exact Or.inr ⟨s0, props, List.mem_cons_of_mem _ hmem, hrest⟩
      | some props =>
        rw [hp] at h
        rcases ih _ e h with h1 | h1
        · rcases Dict.mem_set _ _ _ _ h1 with h2 | h2
          · right
            refine ⟨s, props, ?_, hp, ?_, ?_, ?_, ?_, ?_, ?_⟩
            · rw [h2]; exact List.mem_cons_self _ _
            · rw [h2]; exact hg1
            · rw [h2]; exact hg2
            · rw [h2]; exact hg3
            · rw [h2]; exact hg4
            · rw [h2]
              by_cases hm : sname = JSONSchema.PROBLEM ∧
                  Dict.hasKey props InputParser.AUTO_SUBSTITUTIONS = true
              · rw [if_pos hm]; exact Or.inr rfl
              · rw [if_neg hm]; exact Or.inl rfl
            · intro hprob
              rw [h2] at hprob ⊢
              simp only at hprob ⊢
              by_cases hm : sname = JSONSchema.PROBLEM ∧
                  Dict.hasKey props InputParser.AUTO_SUBSTITUTIONS = true
              · rw [if_pos hm]; exact Dict.hasKey_erase_self _ _
              · rw [if_neg hm]
                rcases Bool.eq_false_or_eq_true
                    (Dict.hasKey props InputParser.AUTO_SUBSTITUTIONS) with hb | hb
                · exact absurd ⟨hprob, hb⟩ hm
                · exact hb
          · exact Or.inl h2
        · obtain ⟨s0, props0, hmem, hrest⟩ := h1
          exact Or.inr ⟨s0, props0, List.mem_cons_of_mem _ hmem, hrest⟩

lemma extract_alloc_go_ids (dn : String) (l : List (String × SectRef)) :
    ∀ (params : List (String × Nat)) (store : Store) (fresh N : Nat),
      N ≤ fresh → (∀ e ∈ params, N ≤ e.2) →
      ∀ e ∈ (extract_alloc_go dn l params store fresh).1, N ≤ e.2 := by
  induction l with
  | nil =>
    intro params store fresh N _ hparams e he
    rw [extract_alloc_go] at he
    exact hparams e he
  | cons hd t ih =>
    obtain ⟨sname, s⟩ := hd
    intro params store fresh N hNf hparams e he
    rw [extract_alloc_go] at he
    by_cases hg : sname = JSONSchema.NAME ∨ sname = InputParser.DRIVER ∨
        sname = str_lower dn ∨ sname = InputParser.OPERATOR
    · rw [if_pos hg] at he
      exact ih params store fresh N hNf hparams e he
    · rw [if_neg hg] at he
      cases hp : s.propsRef with
      | none =>
        rw [hp] at he
        exact ih params store fresh N hNf hparams e he
      | some r =>
        rw [hp] at he
        refine ih _ _ (fresh + 1) N (Nat.le_succ_of_le hNf) ?_ e he
        intro e1 he1
        rcases Dict.mem_set _ _ _ _ he1 with h2 | h2
        · rw [h2]; exact hNf
        · exact hparams e1 h2

lemma extract_alloc_go_store_low (dn : String) (l : List (String × SectRef)) :
    ∀ (params : List (String × Nat)) (store : Store) (fresh j : Nat),
      j < fresh → (extract_alloc_go dn l params store fresh).2.1 j = store j := by
  induction l with
  | nil =>
    intro params store fresh j _
    rw [extract_alloc_go]
  | cons hd t ih =>
    obtain ⟨sname, s⟩ := hd
    intro params store fresh j hj
    rw [extract_alloc_go]
    by_cases hg : sname = JSONSchema.NAME ∨ sname = InputParser.DRIVER ∨
        sname = str_lower dn ∨ sname = InputParser.OPERATOR
    · rw [if_pos hg]
      exact ih params store fresh j hj
    · rw [if_neg hg]
      cases hp : s.propsRef with
      | none => exact ih params store fresh j hj
      | some r =>
        have h1 := ih (Dict.set params sname fresh)
          (Store.write store fresh
            (if sname = JSONSchema.PROBLEM ∧
                Dict.hasKey (store r) InputParser.AUTO_SUBSTITUTIONS = true then
              Dict.erase (store r) InputParser.AUTO_SUBSTITUTIONS
            else store r))
          (fresh + 1) j (Nat.lt_succ_of_lt hj)
        rw [h1, Store.write, if_neg (Nat.ne_of_lt hj)]

lemma run_operator_stage_ok (env : Env) (st : OrchState) (p1 : InputParser)
    (driver_name : String) (molecule : Molecule) (tr : List Effect) :
    (∃ e, (AquaChemistry.run_operator_stage env st p1 driver_name molecule
        tr).result = .error e) ∨
    (∃ core p2, env.get_chemistry_operator_instance
        (p1.get_section_property InputParser.OPERATOR JSONSchema.NAME)
        (p1.get_section_properties InputParser.OPERATOR) = .ok core ∧
      env.process_substitutions p1 core.molecule_info = .ok p2 ∧
      (AquaChemistry.run_operator_stage env st p1 driver_name molecule
          tr).result =
        .ok (extract_algorithm_parameters p2.get_sections driver_name,
             core.run_mol molecule)) := by
  cases hc : env.get_chemistry_operator_instance
      (p1.get_section_property InputParser.OPERATOR JSONSchema.NAME)
      (p1.get_section_properties InputParser.OPERATOR) with
  | error e =>
    exact Or.inl ⟨e, by simp [AquaChemistry.run_operator_stage, hc]⟩
  | ok core =>
    cases hs : env.process_substitutions p1 core.molecule_info with
    | error e =>
      exact Or.inl ⟨e, by simp [AquaChemistry.run_operator_stage, hc, hs]⟩
    | ok p2 =>
      exact Or.inr ⟨core, p2, rfl, hs,
        by simp [AquaChemistry.run_operator_stage, hc, hs]⟩

lemma run_driver_stage_staging_eq_not_hdf5 (env : Env) (st st2 : OrchState)
    (tr : List Effect) (t : String) :
    AquaChemistry.run_driver_stage env st true ≠ ⟨st2, tr, .ok (.toHdf5 t)⟩ := by
  intro hE
  unfold AquaChemistry.run_driver_stage at hE
  repeat' split at hE
  all_goals (try simp only [AquaChemistry.run_operator_stage] at hE)
  all_goals (repeat' split at hE)
  all_goals simp_all

lemma run_driver_stage_staging_not_hdf5 (env : Env) (st : OrchState)
    (t : String) :
    (AquaChemistry.run_driver_stage env st true).result ≠
      .ok (.toHdf5 t) := by
  intro h
  rcases hE : AquaChemistry.run_driver_stage env st true with ⟨st2, tr, res⟩
  rw [hE] at h
  simp only at h
  rw [h] at hE
  exact run_driver_stage_staging_eq_not_hdf5 env st st2 tr t hE

/-! Claim theorems. -/

/-- C3: For every well-formed document (section names normalized to lower
case, as the external parser stores them, and unique), every entry of the
assembled algorithm-parameter mapping of lines 227-239 is not the metadata
name section, not the driver meta-section, not the concrete driver section
when matched case-insensitively against the resolved driver name, not the
operator meta-section, comes from a section that has a properties map, and,
for the designated problem section, does not contain the auto-substitution
marker key. -/
theorem extract_algorithm_parameters_exclusions
    (sections : List (String × Sect)) (driver_name : String)
    (hlc : ∀ sp ∈ sections, str_lower sp.1 = sp.1)
    (hnd : (sections.map Prod.fst).Nodup) :
    ∀ e ∈ extract_algorithm_parameters sections driver_name,
      e.1 ≠ JSONSchema.NAME ∧ e.1 ≠ InputParser.DRIVER ∧
      str_lower e.1 ≠ str_lower driver_name ∧
      e.1 ≠ InputParser.OPERATOR ∧
      ((Dict.get sections e.1).bind (fun s => s.properties)).isSome = true ∧
      (e.1 = JSONSchema.PROBLEM →
        Dict.hasKey e.2 InputParser.AUTO_SUBSTITUTIONS = false) := by
  intro e he
  rcases extract_go_mem driver_name sections [] e he with h | h
  · cases h
  obtain ⟨s, props, hmem, hp, h1, h2, h3, h4, _, h6⟩ := h
  have hlow : str_lower e.1 = e.1 := hlc (e.1, s) hmem
  refine ⟨h1, h2, ?_, h4, ?_, h6⟩
  · rw [hlow]; exact h3
  · rw [Dict.get_of_mem_nodup hnd hmem]
    rw [Option.some_bind, hp]
    rfl

/-- Witness for C3 at the concrete document parserH with driver pyscf: the
problem entry of the assembled mapping satisfies every exclusion and has
lost the marker key. -/
theorem extract_algorithm_parameters_exclusions_witness :
    "problem" ≠ JSONSchema.NAME ∧ "problem" ≠ InputParser.DRIVER ∧
    str_lower "problem" ≠ str_lower "pyscf" ∧
    "problem" ≠ InputParser.OPERATOR ∧
    ((Dict.get parserH.sections "problem").bind
      (fun s => s.properties)).isSome = true ∧
    ("problem" = JSONSchema.PROBLEM →
      Dict.hasKey [("energy", "x")] InputParser.AUTO_SUBSTITUTIONS = false) :=
  extract_algorithm_parameters_exclusions parserH.sections "pyscf"
    (by decide) (by decide) ("problem", [("energy", "x")]) (by decide)

/-- C7: deep-copy frame property of line 236, on the allocation-aware
reading: every entry of the assembled parameter mapping is a freshly
allocated dict object, the allocation leaves every document-owned dict cell
unchanged, and mutating any entry of the returned mapping leaves the
contents of every properties cell of the document exactly as before the
extraction. -/
theorem extract_algorithm_parameters_deepcopy
    (sections : List (String × SectRef)) (driver_name : String)
    (store : Store) (fresh : Nat)
    (hdoc : ∀ sp ∈ sections, ∀ r, sp.2.propsRef = some r → r < fresh) :
    ∀ e ∈ (extract_algorithm_parameters_alloc sections driver_name store
        fresh).1,
      fresh ≤ e.2 ∧
      ∀ sp ∈ sections, ∀ r, sp.2.propsRef = some r → ∀ v,
        Store.write
          (extract_algorithm_parameters_alloc sections driver_name store
            fresh).2.1 e.2 v r = store r := by
  intro e he
  have hid : fresh ≤ e.2 :=
    extract_alloc_go_ids driver_name sections [] store fresh fresh
      (Nat.le_refl fresh) (by intro e1 he1; cases he1) e he
  refine ⟨hid, ?_⟩
  intro sp hsp r hr v
  have hrf : r < fresh := hdoc sp hsp r hr
  have hne : r ≠ e.2 := Nat.ne_of_lt (Nat.lt_of_lt_of_le hrf hid)
  rw [Store.write]
  simp only [if_neg hne]
  exact extract_alloc_go_store_low driver_name sections [] store fresh r hrf

/-- Witness for C7: in the concrete document sectionsR over heap storeR,
mutating the returned problem copy (address 5) leaves the document problem
cell (address 3) unchanged. -/
theorem extract_algorithm_parameters_deepcopy_witness :
    5 ≤ 5 ∧
    Store.write
      (extract_algorithm_parameters_alloc sectionsR "pyscf" storeR 5).2.1 5
      [("hacked", "1")] 3 =
      [("auto_substitutions", "true"), ("energy", "x")] := by
  have h := extract_algorithm_parameters_deepcopy sectionsR "pyscf" storeR 5
    (by decide) ("problem", 5) (by decide)
  exact ⟨h.1, (h.2 ("problem", { propsRef := some 3 }) (by decide) 3 rfl
    [("hacked", "1")]).trans (by decide)⟩

/-- C1: For every document whose driver meta-section configures an hdf5
persistence path and that reaches the driver stage (parse and validation
succeed, the mandatory driver name is present, the driver section has a raw
payload, the driver is registered), the non-staging entry point run persists
the Molecule (with provenance attached), returns exactly a mapping with the
single printable key holding one line naming the saved path, and never
invokes the algorithm runner. -/
theorem run_hdf5_short_circuit
    (env : Env) (st : OrchState) (r : RawInput) (output : Option String)
    (p1 : InputParser) (driver_name f0 ddata : String) (dsect : Sect)
    (hparse : r.parseErr = none)
    (hval : env.validate_merge_defaults r.parserObj = .ok p1)
    (hname : p1.get_section_property InputParser.DRIVER JSONSchema.NAME =
      some driver_name)
    (hhdf5 : p1.get_section_property InputParser.DRIVER
      AquaChemistry.KEY_HDF5_OUTPUT = some f0)
    (hsect : p1.get_section driver_name = some dsect)
    (hdata : dsect.data = some ddata)
    (hreg : driver_name ∈ env.module_names) :
    (AquaChemistry.run env st (some r) output).result =
      .ok [("printable", RVal.lines [hdf5_saved_text
        (resolve_hdf5_path env (p1.get_filename.map env.dirname_realpath)
          f0)])] ∧
    (AquaChemistry.run env st (some r) output).trace =
      [Effect.driverRun driver_name,
       Effect.moleculeSaved
         (resolve_hdf5_path env (p1.get_filename.map env.dirname_realpath) f0)
         { env.driver_run driver_name
             (p1.get_filename.map env.dirname_realpath) dsect with
           origin_driver_name := some driver_name,
           origin_driver_config := some ddata }] ∧
    Effect.algorithmRun ∉ (AquaChemistry.run env st (some r) output).trace := by
  have hrun : AquaChemistry.run env st (some r) output =
      ⟨{ st with stParser := some p1 },
       [Effect.driverRun driver_name,
        Effect.moleculeSaved
          (resolve_hdf5_path env (p1.get_filename.map env.dirname_realpath)
            f0)
          { env.driver_run driver_name
              (p1.get_filename.map env.dirname_realpath) dsect with
            origin_driver_name := some driver_name,
            origin_driver_config := some ddata }],
       .ok [("printable", RVal.lines [hdf5_saved_text
         (resolve_hdf5_path env (p1.get_filename.map env.dirname_realpath)
           f0)])]⟩ := by
    rw [AquaChemistry.run]
    rw [AquaChemistry.run_driver_stage]
    simp [hparse, hval, hname, hhdf5, hsect, hdata, hreg]
  rw [hrun]
  refine ⟨rfl, rfl, ?_⟩
  simp

/-- Witness for C1: on the concrete hdf5-configured document parserH with
the concrete environment envW, run returns exactly the single printable
line naming the saved path and the algorithm runner effect never occurs. -/
theorem run_hdf5_short_circuit_witness :
    (AquaChemistry.run envW {} (some { parserObj := parserH }) none).result =
      .ok [("printable",
        RVal.lines ["HDF5 file saved \x27/wk/mol.hdf5\x27"])] ∧
    Effect.algorithmRun ∉
      (AquaChemistry.run envW {} (some { parserObj := parserH }) none).trace := by
  have h := run_hdf5_short_circuit envW {} { parserObj := parserH } none
    parserH "pyscf" "mol.hdf5" "atom H2" sectPyscf rfl rfl rfl rfl rfl rfl
    (by decide)
  refine ⟨?_, h.2.2⟩
  rw [h.1]
  rfl

/-- C2: For every document whose driver meta-section configures an hdf5
persistence path, in staged-JSON mode (save_json_algo_file true, as used by
run_drive_to_jsonfile) the Molecule is still persisted but the pipeline does
not short-circuit: when the operator resolution and the substitution pass
succeed it proceeds all the way to parameter assembly, returning the
algorithm-input tuple built from the substituted document. -/
theorem run_driver_stage_staging_continues
    (env : Env) (st : OrchState)
    (p0 p1 p2 : InputParser) (driver_name f0 ddata : String) (dsect : Sect)
    (core : Core)
    (hst : st.stParser = some p0)
    (hval : env.validate_merge_defaults p0 = .ok p1)
    (hname : p1.get_section_property InputParser.DRIVER JSONSchema.NAME =
      some driver_name)
    (hhdf5 : p1.get_section_property InputParser.DRIVER
      AquaChemistry.KEY_HDF5_OUTPUT = some f0)
    (hsect : p1.get_section driver_name = some dsect)
    (hdata : dsect.data = some ddata)
    (hreg : driver_name ∈ env.module_names)
    (hcore : env.get_chemistry_operator_instance
      (p1.get_section_property InputParser.OPERATOR JSONSchema.NAME)
      (p1.get_section_properties InputParser.OPERATOR) = .ok core)
    (hsub : env.process_substitutions p1 core.molecule_info = .ok p2) :
    Effect.moleculeSaved
      (resolve_hdf5_path env (p1.get_filename.map env.dirname_realpath) f0)
      { env.driver_run driver_name
          (p1.get_filename.map env.dirname_realpath) dsect with
        origin_driver_name := some driver_name,
        origin_driver_config := some ddata } ∈
      (AquaChemistry.run_driver_stage env st true).trace ∧
    (AquaChemistry.run_driver_stage env st true).result =
      .ok (.toAlgoInput
        (extract_algorithm_parameters p2.get_sections driver_name)
        (core.run_mol
          { env.driver_run driver_name
              (p1.get_filename.map env.dirname_realpath) dsect with
            origin_driver_name := some driver_name,
            origin_driver_config := some ddata })) ∧
    (AquaChemistry.run_driver_stage env st true).state.stCore = some core := by
  have hstage : AquaChemistry.run_driver_stage env st true =
      ⟨{ st with stParser := some p2, stCore := some core },
       [Effect.driverRun driver_name,
        Effect.moleculeSaved
          (resolve_hdf5_path env (p1.get_filename.map env.dirname_realpath)
            f0)
          { env.driver_run driver_name
              (p1.get_filename.map env.dirname_realpath) dsect with
            origin_driver_name := some driver_name,
            origin_driver_config := some ddata }],
       .ok (.toAlgoInput
         (extract_algorithm_parameters p2.get_sections driver_name)
         (core.run_mol
           { env.driver_run driver_name
               (p1.get_filename.map env.dirname_realpath) dsect with
             origin_driver_name := some driver_name,
             origin_driver_config := some ddata }))⟩ := by
    rw [AquaChemistry.run_driver_stage]
    simp [hst, hval, hname, hhdf5, hsect, hdata, hreg,
      AquaChemistry.run_operator_stage, hcore, hsub]
  rw [hstage]
  exact ⟨by simp, rfl, rfl⟩

/-- Witness for C2: on parserH with envW, the staging driver stage persists
the molecule and continues to the assembled parameters. -/
theorem run_driver_stage_staging_continues_witness :
    Effect.moleculeSaved "/wk/mol.hdf5"
      { payload := 7, origin_driver_name := some "pyscf",
        origin_driver_config := some "atom H2" } ∈
      (AquaChemistry.run_driver_stage envW
        { stParser := some parserH } true).trace ∧
    (AquaChemistry.run_driver_stage envW
        { stParser := some parserH } true).result =
      .ok (.toAlgoInput
        [("problem", [("energy", "x")]), ("algorithm", [("name", "vqe")])]
        { to_params := [("qubit_mapping", "parity")],
          config_name := "hamiltonian" }) := by
  have h := run_driver_stage_staging_continues envW
    { stParser := some parserH } parserH parserH parserH "pyscf" "mol.hdf5"
    "atom H2" sectPyscf coreW rfl rfl rfl rfl rfl rfl (by decide) rfl rfl
  refine ⟨?_, ?_⟩
  · have := h.1
    simpa using this
  · rw [h.2.1]
    rfl

/-- C4: When the driver meta-section lacks the mandatory name property, run
fails with the missing-property error and no driver is resolved or invoked
(the effect trace is empty); when the name is present, the missing-data
check on the driver section is performed before the registry-membership
check, so a document naming an unregistered driver whose own section has no
raw payload fails with the missing-data error, again with the driver never
run. -/
theorem run_driver_resolution_error_ordering
    (env : Env) (st : OrchState) (r1 r2 : RawInput) (output : Option String)
    (p11 p12 : InputParser) (dn : String) (dsect : Sect)
    (hparse1 : r1.parseErr = none)
    (hval1 : env.validate_merge_defaults r1.parserObj = .ok p11)
    (hname1 : p11.get_section_property InputParser.DRIVER JSONSchema.NAME =
      none)
    (hparse2 : r2.parseErr = none)
    (hval2 : env.validate_merge_defaults r2.parserObj = .ok p12)
    (hname2 : p12.get_section_property InputParser.DRIVER JSONSchema.NAME =
      some dn)
    (hsect2 : p12.get_section dn = some dsect)
    (hdata2 : dsect.data = none)
    (hmem2 : dn ∉ env.module_names) :
    (AquaChemistry.run env st (some r1) output).result =
      .error (.aqua "Property \"name\" missing in section \"driver\"") ∧
    (AquaChemistry.run env st (some r1) output).trace = [] ∧
    (AquaChemistry.run env st (some r2) output).result =
      .error (.aqua ("Property \"data\" missing in section \"" ++ dn ++
        "\"")) ∧
    (AquaChemistry.run env st (some r2) output).trace = [] := by
  refine ⟨?_, ?_, ?_, ?_⟩ <;>
    (rw [AquaChemistry.run, AquaChemistry.run_driver_stage] <;>
     simp [hparse1, hval1, hname1, hparse2, hval2, hname2, hsect2, hdata2,
       hmem2] <;> rfl)

/-- Witness for C4: parserNoName lacks the driver name property and
parserNoData names the unregistered driver unreg whose section has no
payload; both runs fail with the stated errors and empty traces. -/
theorem run_driver_resolution_error_ordering_witness :
    (AquaChemistry.run envW {}
        (some { parserObj := parserNoName }) none).result =
      .error (.aqua "Property \"name\" missing in section \"driver\"") ∧
    (AquaChemistry.run envW {}
        (some { parserObj := parserNoName }) none).trace = [] ∧
    (AquaChemistry.run envW {}
        (some { parserObj := parserNoData }) none).result =
      .error (.aqua ("Property \"data\" missing in section \"" ++ "unreg" ++
        "\"")) ∧
    (AquaChemistry.run envW {}
        (some { parserObj := parserNoData }) none).trace = [] :=
  run_driver_resolution_error_ordering envW {} { parserObj := parserNoName }
    { parserObj := parserNoData } none parserNoName parserNoData "unreg"
    { properties := some [("atom", "H2")] } rfl rfl rfl rfl rfl rfl rfl rfl
    (by decide)

/-- C6: For every run reaching the algorithm stage (here: a document
without an hdf5 path whose whole driver and operator pipeline succeeds),
run raises the algorithm-result-type error exactly when the algorithm
runner returns a non-mapping, and returns the processed mapping otherwise;
run_algorithm_from_json behaves the same on its pre-staged document. -/
theorem algorithm_result_type_check
    (env : Env) (st : OrchState) (r : RawInput) (output : Option String)
    (p1 p2 : InputParser) (driver_name ddata : String) (dsect : Sect)
    (core : Core) (pj : Params)
    (hparse : r.parseErr = none)
    (hval : env.validate_merge_defaults r.parserObj = .ok p1)
    (hname : p1.get_section_property InputParser.DRIVER JSONSchema.NAME =
      some driver_name)
    (hnohdf5 : p1.get_section_property InputParser.DRIVER
      AquaChemistry.KEY_HDF5_OUTPUT = none)
    (hsect : p1.get_section driver_name = some dsect)
    (hdata : dsect.data = some ddata)
    (hreg : driver_name ∈ env.module_names)
    (hcore : env.get_chemistry_operator_instance
      (p1.get_section_property InputParser.OPERATOR JSONSchema.NAME)
      (p1.get_section_properties InputParser.OPERATOR) = .ok core)
    (hsub : env.process_substitutions p1 core.molecule_info = .ok p2) :
    (env.run_algorithm
        (extract_algorithm_parameters p2.get_sections driver_name)
        (some (core.run_mol (env.driver_run driver_name
          (p1.get_filename.map env.dirname_realpath) dsect))) = .nondict →
      (AquaChemistry.run env st (some r) output).result =
        .error (.aqua "Algorithm run result should be a dictionary")) ∧
    (∀ d, env.run_algorithm
        (extract_algorithm_parameters p2.get_sections driver_name)
        (some (core.run_mol (env.driver_run driver_name
          (p1.get_filename.map env.dirname_realpath) dsect))) = .dict d →
      (AquaChemistry.run env st (some r) output).result =
        .ok (Dict.set (core.process_result (env.convert_json_to_dict d)).2
          "printable"
          (RVal.lines (core.process_result
            (env.convert_json_to_dict d)).1))) ∧
    (env.run_algorithm pj none = .nondict →
      (AquaChemistry.run_algorithm_from_json env pj output).2 =
        .error (.aqua "Algorithm run result should be a dictionary")) ∧
    (∀ d, env.run_algorithm pj none = .dict d →
      (AquaChemistry.run_algorithm_from_json env pj output).2 =
        .ok (env.convert_json_to_dict d)) := by
  have hstage : AquaChemistry.run_driver_stage env
      { st with stParser := some r.parserObj } false =
      ⟨{ st with stParser := some p2, stCore := some core },
       [Effect.driverRun driver_name],
       .ok (.toAlgoInput
         (extract_algorithm_parameters p2.get_sections driver_name)
         (core.run_mol (env.driver_run driver_name
           (p1.get_filename.map env.dirname_realpath) dsect)))⟩ := by
    rw [AquaChemistry.run_driver_stage]
    simp [hval, hname, hnohdf5, hsect, hdata, hreg,
      AquaChemistry.run_operator_stage, hcore, hsub]
  refine ⟨?_, ?_, ?_, ?_⟩
  · intro halgo
    rw [AquaChemistry.run]
    simp [hparse, hstage, halgo]
  · intro d halgo
    rw [AquaChemistry.run]
    simp [hparse, hstage, halgo]
    cases output <;> simp
  · intro halgo
    rw [AquaChemistry.run_algorithm_from_json, halgo]
  · intro d halgo
    rw [AquaChemistry.run_algorithm_from_json, halgo]

/-- Witness for C6, both directions: with the non-mapping runner envN the
run on parserA raises the result-type error, and with the mapping-returning
runner envW the same document yields the processed result without error. -/
theorem algorithm_result_type_check_witness :
    (AquaChemistry.run envN {} (some { parserObj := parserA }) none).result =
      .error (.aqua "Algorithm run result should be a dictionary") ∧
    (AquaChemistry.run envW {} (some { parserObj := parserA }) none).result =
      .ok [("energy", RVal.str "-1.0"),
           ("printable", RVal.lines ["result line"])] := by
  have h1 := (algorithm_result_type_check envN {} { parserObj := parserA }
    none parserA parserA "pyscf" "atom H2" sectPyscf coreW [] rfl rfl rfl rfl
    rfl rfl (by decide) rfl rfl).1 rfl
  have h2 := ((algorithm_result_type_check envW {} { parserObj := parserA }
    none parserA parserA "pyscf" "atom H2" sectPyscf coreW [] rfl rfl rfl rfl
    rfl rfl (by decide) rfl rfl).2.1 [("energy", RVal.str "-1.0")] rfl)
  refine ⟨h1, ?_⟩
  rw [h2]
  rfl

/-- C8: For every document whose driver meta-section configures an hdf5
persistence path (and whose driver stage succeeds), the public run_drive
entry point never returns the assembled-parameter mapping: the short-circuit
value at tuple index 1 is a plain string, and the attempt of line 162 to
attach the input sub-mapping to it fails with the untyped TypeError, which
is not an AquaChemistryError of the documented taxonomy. -/
theorem run_drive_hdf5_untyped_error
    (env : Env) (st : OrchState) (r : RawInput)
    (p1 : InputParser) (driver_name f0 ddata : String) (dsect : Sect)
    (hparse : r.parseErr = none)
    (hval : env.validate_merge_defaults r.parserObj = .ok p1)
    (hname : p1.get_section_property InputParser.DRIVER JSONSchema.NAME =
      some driver_name)
    (hhdf5 : p1.get_section_property InputParser.DRIVER
      AquaChemistry.KEY_HDF5_OUTPUT = some f0)
    (hsect : p1.get_section driver_name = some dsect)
    (hdata : dsect.data = some ddata)
    (hreg : driver_name ∈ env.module_names) :
    (AquaChemistry.run_drive env st (some r)).result =
      .error PyErr.typeError ∧
    (∀ m, (AquaChemistry.run_drive env st (some r)).result ≠
      .error (.aqua m)) ∧
    (∀ d, (AquaChemistry.run_drive env st (some r)).result ≠ .ok d) := by
  have hdrive : (AquaChemistry.run_drive env st (some r)).result =
      .error PyErr.typeError := by
    rw [AquaChemistry.run_drive, AquaChemistry.run_drive_impl,
      AquaChemistry.run_driver_stage]
    simp [hparse, hval, hname, hhdf5, hsect, hdata, hreg]
  refine ⟨hdrive, ?_, ?_⟩
  · intro m h
    rw [hdrive] at h
    cases h
  · intro d h
    rw [hdrive] at h
    cases h

/-- Witness for C8: on parserH with envW, run_drive raises the untyped
TypeError. -/
theorem run_drive_hdf5_untyped_error_witness :
    (AquaChemistry.run_drive envW {}
        (some { parserObj := parserH })).result = .error PyErr.typeError ∧
    (AquaChemistry.run_drive envW {}
        (some { parserObj := parserH })).result ≠ .error (.aqua "x") := by
  have h := run_drive_hdf5_untyped_error envW {} { parserObj := parserH }
    parserH "pyscf" "mol.hdf5" "atom H2" sectPyscf rfl rfl rfl rfl rfl rfl
    (by decide)
  exact ⟨h.1, h.2.1 "x"⟩

/-- C9: A failed run is not atomic on instance state: run, run_drive and
run_drive_to_jsonfile store the newly parsed document in the instance before
validation, so after a call that parsed successfully but failed validation,
save_input does not raise the missing-input error and serializes the new
(possibly invalid) document. -/
theorem failed_run_keeps_new_document
    (env : Env) (st : OrchState) (r : RawInput) (output : Option String)
    (jf f : String) (e : PyErr)
    (hparse : r.parseErr = none)
    (hval : env.validate_merge_defaults r.parserObj = .error e) :
    (AquaChemistry.run env st (some r) output).result = .error e ∧
    (AquaChemistry.run env st (some r) output).state.stParser =
      some r.parserObj ∧
    AquaChemistry.save_input (AquaChemistry.run env st (some r) output).state
      f = ([Effect.inputSaved f r.parserObj], .ok ()) ∧
    (AquaChemistry.run_drive env st (some r)).result = .error e ∧
    AquaChemistry.save_input (AquaChemistry.run_drive env st (some r)).state
      f = ([Effect.inputSaved f r.parserObj], .ok ()) ∧
    (AquaChemistry.run_drive_to_jsonfile env st (some r) (some jf)).result =
      .error e ∧
    AquaChemistry.save_input
      (AquaChemistry.run_drive_to_jsonfile env st (some r) (some jf)).state
      f = ([Effect.inputSaved f r.parserObj], .ok ()) := by
  have hstage : ∀ b, AquaChemistry.run_driver_stage env
      { st with stParser := some r.parserObj } b =
      ⟨{ st with stParser := some r.parserObj }, [], .error e⟩ := by
    intro b
    rw [AquaChemistry.run_driver_stage]
    simp [hval]
  refine ⟨?_, ?_, ?_, ?_, ?_, ?_, ?_⟩ <;>
    simp [AquaChemistry.run, AquaChemistry.run_drive,
      AquaChemistry.run_drive_impl, AquaChemistry.run_drive_to_jsonfile,
      AquaChemistry.save_input, hparse, hstage]

/-- Witness for C9: with the failing validator envV on parserH, all three
entry points fail with the validation error yet save_input serializes the
newly parsed document. -/
theorem failed_run_keeps_new_document_witness :
    (AquaChemistry.run envV {} (some { parserObj := parserH }) none).result =
      .error (.aqua "Validation failed") ∧
    AquaChemistry.save_input
      (AquaChemistry.run envV {} (some { parserObj := parserH }) none).state
      "saved.txt" =
      ([Effect.inputSaved "saved.txt" parserH], .ok ()) := by
  have h := failed_run_keeps_new_document envV {} { parserObj := parserH }
    none "algo.json" "saved.txt" (.aqua "Validation failed") rfl rfl
  exact ⟨h.1, h.2.2.1⟩

lemma run_drive_impl_never_none (env : Env) (st : OrchState)
    (input : Option RawInput) (b : Bool) :
    (AquaChemistry.run_drive_impl env st input b).result ≠ .ok none := by
  intro h
  cases input with
  | none => simp [AquaChemistry.run_drive_impl] at h
  | some r =>
    cases hp : r.parseErr with
    | some e => simp [AquaChemistry.run_drive_impl, hp] at h
    | none =>
      rcases hE : AquaChemistry.run_driver_stage env
          { st with stParser := some r.parserObj } b with ⟨st2, tr, res⟩
      cases res with
      | error e =>
        rw [AquaChemistry.run_drive_impl] at h
        simp [hp, hE] at h
      | ok dr =>
        cases dr with
        | toHdf5 t =>
          rw [AquaChemistry.run_drive_impl] at h
          simp [hp, hE] at h
        | toAlgoInput params io =>
          rw [AquaChemistry.run_drive_impl] at h
          simp [hp, hE] at h

/-- C10: The informational no-data branch of run_drive_to_jsonfile is
unreachable: in staging mode the driver stage never returns the hdf5
short-circuit tuple, the internal drive step never returns an absent value,
and whenever run_drive_to_jsonfile returns normally the JSON file has been
written. -/
theorem run_drive_to_jsonfile_always_writes
    (env : Env) (st : OrchState) (input : Option RawInput) (jf : String) :
    (∀ t, (AquaChemistry.run_driver_stage env st true).result ≠
      .ok (.toHdf5 t)) ∧
    ((AquaChemistry.run_drive_impl env st input true).result ≠ .ok none) ∧
    ((AquaChemistry.run_drive_to_jsonfile env st input (some jf)).result =
        .ok () →
      ∃ data, Effect.jsonWritten jf data ∈
        (AquaChemistry.run_drive_to_jsonfile env st input (some jf)).trace) := by
  refine ⟨fun t => run_driver_stage_staging_not_hdf5 env st t,
    run_drive_impl_never_none env st input true, ?_⟩
  intro hok
  rcases hE : AquaChemistry.run_drive_impl env st input true with
    ⟨st2, tr, res⟩
  cases res with
  | error e =>
    rw [AquaChemistry.run_drive_to_jsonfile] at hok
    simp [hE] at hok
  | ok od =>
    cases od with
    | none =>
      exact absurd (by rw [hE]) (run_drive_impl_never_none env st input true)
    | some data =>
      refine ⟨data, ?_⟩
      rw [AquaChemistry.run_drive_to_jsonfile]
      simp [hE]

/-- Witness for C10: on parserH with envW, the staging drive yields no hdf5
tuple and no absent value, run_drive_to_jsonfile returns normally, and the
JSON file effect is present in the trace. -/
theorem run_drive_to_jsonfile_always_writes_witness :
    (AquaChemistry.run_driver_stage envW { stParser := some parserH }
        true).result ≠ .ok (.toHdf5 "x") ∧
    (AquaChemistry.run_drive_impl envW { stParser := some parserH }
        (some { parserObj := parserH }) true).result ≠ .ok none ∧
    (AquaChemistry.run_drive_to_jsonfile envW { stParser := some parserH }
        (some { parserObj := parserH }) (some "algo.json")).result =
      .ok () ∧
    Effect.jsonWritten "algo.json"
        [("problem", [("energy", "x")]), ("algorithm", [("name", "vqe")]),
         ("input", [("qubit_mapping", "parity"), ("name", "hamiltonian")])] ∈
      (AquaChemistry.run_drive_to_jsonfile envW { stParser := some parserH }
        (some { parserObj := parserH }) (some "algo.json")).trace := by
  have h := run_drive_to_jsonfile_always_writes envW
    { stParser := some parserH } (some { parserObj := parserH }) "algo.json"
  have _hd := h.2.2 rfl
  exact ⟨h.1 "x", h.2.1, rfl, by decide⟩

/-- Counterexample to C5 as stated: with envW, a mapping-returning runner,
run_algorithm_from_json called with output path out.txt succeeds but its
whole effect trace is the algorithm invocation alone: no file-write effect
at out.txt (or anywhere) occurs, so the result lines are not persisted to
the supplied output path. -/
theorem run_algorithm_from_json_output_cex :
    (AquaChemistry.run_algorithm_from_json envW [("x", [("a", "b")])]
        (some "out.txt")).2 = .ok [("energy", RVal.str "-1.0")] ∧
    (AquaChemistry.run_algorithm_from_json envW [("x", [("a", "b")])]
        (some "out.txt")).1 = [Effect.algorithmRun] :=
  ⟨rfl, rfl⟩

/-- C5 amended: run_algorithm_from_json (and run_algorithm_from_jsonfile)
accept an output argument but ignore it: no PERSIST stage occurs, the only
effect is the algorithm invocation, and the converted result mapping is
returned (also printed to stdout). -/
theorem run_algorithm_from_json_ignores_output
    (env : Env) (params : Params) (output : Option String) :
    (AquaChemistry.run_algorithm_from_json env params output).1 =
      [Effect.algorithmRun] ∧
    (AquaChemistry.run_algorithm_from_jsonfile env params output).1 =
      [Effect.algorithmRun] := by
  cases hA : env.run_algorithm params none <;>
    simp [AquaChemistry.run_algorithm_from_json,
      AquaChemistry.run_algorithm_from_jsonfile, hA]
